import Mathlib

/-!
Shallow embedding of the trustful-stellar-v1 Soroban contracts
(src/contracts/deployer/src/deployer.rs,
 src/contracts/scorer/src/scorer.rs,
 src/contracts/scorer_factory/src/scorer_factory.rs).

Addresses are opaque identifiers; a contract address derived by the host
from a deployer address and a salt is modelled by a dedicated constructor,
which makes the derivation deterministic and collision-free, exactly the
guarantee the Soroban host provides.  Persistent storage slots are `Option`
fields (a `get` on a missing slot yields `none`).  `require_auth` is
modelled by an authorization environment `Address → Bool`; its failure is
the host-level error `Err.authFailure`, distinct from the contract error
enums.  Every contract entry point is a function returning `Except Err σ`:
returning `Except.error` models a panic, which on Soroban aborts the whole
invocation with no persisted state change (`runTx1` below realises that
all-or-nothing transaction semantics).
-/

namespace Trustful

abbrev Salt := Nat
abbrev CodeHash := Nat

/-- Account and contract identifiers.  `derivedFrom d s` is the
deterministic contract address the host computes from deployer `d` and
salt `s`. -/
inductive Address where
  | acct : Nat → Address
  | derivedFrom : Address → Salt → Address
deriving DecidableEq, Repr

/-- All failure modes: the host-level failures (auth failure, address
collision, bad Val conversion) plus the union of the two contracts'
`Error` enums. -/
inductive Err where
  | authFailure
  | addressOccupied
  | valNotString
  | ContractAlreadyInitialized
  | Unauthorized
  | ManagerAlreadyExists
  | ManagerNotFound
  | ManagersNotFound
  | ContractCreatorNotFound
  | ScorersWereNotFound
  | ScorerNotFound
  | InvalidInitArgs
  | ScorerFactoryCreatorNotFound
  | CannotRemoveLastManager
  | ScorerCreatorDoesNotExist
  | UserAlreadyExist
  | UserDoesNotExist
  | BadgeAlreadyExists
  | BadgeNotFound
  | InvalidScoreRange
  | EmptyArg
  | ScorerCreatorNotFound
deriving DecidableEq, Repr

/-- Soroban `Val`: dynamically typed argument values.  Only the variants
the contracts inspect are distinguished. -/
inductive Val where
  | str : String → Val
  | addr : Address → Val
  | other : Nat → Val
deriving DecidableEq, Repr

/-- `String::from_val`: converting a non-string `Val` to a `String`
traps. -/
def stringFromVal : Val → Except Err String
  | .str s => .ok s
  | _ => .error .valNotString

/-- Soroban `Map` lookup (`map.get(k)`). -/
def mapGet {K V : Type} [DecidableEq K] : List (K × V) → K → Option V
  | [], _ => none
  | (k, v) :: rest, key => if k = key then some v else mapGet rest key

/-- Soroban `Map` update (`map.set(k, v)`): replace in place or append. -/
def mapSet {K V : Type} [DecidableEq K] : List (K × V) → K → V → List (K × V)
  | [], key, value => [(key, value)]
  | (k, v) :: rest, key, value =>
    if k = key then (key, value) :: rest else (k, v) :: mapSet rest key value

/-- Soroban `Map::contains_key`. -/
def mapHas {K V : Type} [DecidableEq K] (m : List (K × V)) (k : K) : Bool :=
  (mapGet m k).isSome

/-- Soroban `Map::remove`. -/
def mapDrop {K V : Type} [DecidableEq K] : List (K × V) → K → List (K × V)
  | [], _ => []
  | (k, v) :: rest, key => if k = key then rest else (k, v) :: mapDrop rest key

/-- `position(..)` followed by `remove(idx)` on a `Vec`: drop the first
occurrence. -/
def eraseFirst : List Address → Address → List Address
  | [], _ => []
  | x :: xs, a => if x = a then xs else x :: eraseFirst xs a

/-- `require_auth`: the invocation must carry authorization from `a`. -/
def requireAuth (auths : Address → Bool) (a : Address) : Except Err Unit :=
  if auths a then .ok () else .error .authFailure

/-- Transaction envelope: a failed invocation commits nothing. -/
def runTx1 {σ : Type} (f : σ → Except Err σ) (s : σ) : σ :=
  match f s with
  | .ok s1 => s1
  | .error _ => s

/-- Badge key: `{name, issuer}` (scorer.rs `BadgeId`). -/
structure BadgeId where
  name : String
  issuer : Address
deriving DecidableEq, Repr

/-- The Scorer contract's persistent storage slots (scorer.rs `DataKey`).
A slot that was never written reads back as `none`. -/
structure ScorerState where
  scorerCreator : Option Address := none
  scorerBadges : Option (List (BadgeId × Nat)) := none
  users : Option (List (Address × Bool)) := none
  managers : Option (List Address) := none
  initialized : Option Bool := none
  name : Option String := none
  description : Option String := none
  icon : Option String := none
deriving DecidableEq, Repr

/-- A Scorer instance whose storage was never written. -/
def freshScorer : ScorerState := {}

namespace ScorerContract

/-- scorer.rs `is_initialized`. -/
def is_initialized (s : ScorerState) : Bool := s.initialized.getD false

/-- scorer.rs `manager_exists`: the managers slot defaults to the empty
vector. -/
def manager_exists (s : ScorerState) (m : Address) : Bool × List Address :=
  let managers := s.managers.getD []
  (managers.contains m, managers)

/-- scorer.rs `initialize`: empty-string check, then the initialized
guard, then the creator's auth, then all slots are written. -/
def initializeOp (auths : Address → Bool) (s : ScorerState) (scorer_creator : Address)
    (scorer_badges : List (BadgeId × Nat)) (nm ds ic : String) : Except Err ScorerState :=
  if nm = "" ∨ ds = "" ∨ ic = "" then .error .EmptyArg
  else if is_initialized s then .error .ContractAlreadyInitialized
  else if auths scorer_creator = false then .error .authFailure
  else .ok { scorerCreator := some scorer_creator
             scorerBadges := some scorer_badges
             users := some []
             managers := some [scorer_creator]
             initialized := some true
             name := some nm
             description := some ds
             icon := some ic }

/-- scorer.rs `is_owner` (panics `ScorerCreatorNotFound` on a missing
creator slot). -/
def ownerOf (s : ScorerState) : Except Err Address :=
  match s.scorerCreator with
  | none => .error .ScorerCreatorNotFound
  | some o => .ok o

/-- scorer.rs `add_manager`. -/
def add_manager (auths : Address → Bool) (s : ScorerState)
    (sender new_manager : Address) : Except Err ScorerState :=
  if auths sender = false then .error .authFailure
  else match s.scorerCreator with
    | none => .error .ScorerCreatorNotFound
    | some owner =>
      if sender ≠ owner then .error .Unauthorized
      else if new_manager ∈ s.managers.getD [] then .error .ManagerAlreadyExists
      else .ok { s with managers := some (s.managers.getD [] ++ [new_manager]) }

/-- scorer.rs `remove_manager`. -/
def remove_manager (auths : Address → Bool) (s : ScorerState)
    (sender manager_to_remove : Address) : Except Err ScorerState :=
  if auths sender = false then .error .authFailure
  else match s.scorerCreator with
    | none => .error .ScorerCreatorNotFound
    | some owner =>
      if sender ≠ owner then .error .Unauthorized
      else if manager_to_remove ∈ s.managers.getD [] then
        .ok { s with managers :=
                (some (eraseFirst (s.managers.getD []) manager_to_remove)) }
      else .error .ManagerNotFound

/-- scorer.rs `add_user`: the users slot defaults to the empty map; only
a currently-active entry is rejected. -/
def add_user (auths : Address → Bool) (s : ScorerState) (user : Address) :
    Except Err ScorerState :=
  if auths user = false then .error .authFailure
  else if mapGet (s.users.getD []) user = some true then .error .UserAlreadyExist
  else .ok { s with users := some (mapSet (s.users.getD []) user true) }

/-- scorer.rs `remove_user`: a missing users slot and an absent or
inactive entry all fail `UserDoesNotExist`; removal sets the flag to
false, the key is retained. -/
def remove_user (auths : Address → Bool) (s : ScorerState) (user : Address) :
    Except Err ScorerState :=
  if auths user = false then .error .authFailure
  else match s.users with
    | none => .error .UserDoesNotExist
    | some us =>
      if ¬ (mapGet us user = some true) then .error .UserDoesNotExist
      else .ok { s with users := some (mapSet us user false) }

/-- scorer.rs `get_users`. -/
def get_users (s : ScorerState) : List (Address × Bool) := s.users.getD []

/-- scorer.rs `get_badges`. -/
def get_badges (s : ScorerState) : List (BadgeId × Nat) := s.scorerBadges.getD []

/-- scorer.rs `add_badge`: manager gate, non-empty name, `score > 10000`
rejection, then uniqueness of the `(name, issuer)` key. -/
def add_badge (auths : Address → Bool) (s : ScorerState) (sender : Address)
    (nm : String) (issuer : Address) (score : Nat) : Except Err ScorerState :=
  if auths sender = false then .error .authFailure
  else if ¬ sender ∈ s.managers.getD [] then .error .Unauthorized
  else if nm = "" then .error .EmptyArg
  else if score > 10000 then .error .InvalidScoreRange
  else if mapHas (s.scorerBadges.getD []) ⟨nm, issuer⟩ then
    .error .BadgeAlreadyExists
  else .ok { s with scorerBadges :=
               (some (mapSet (s.scorerBadges.getD []) ⟨nm, issuer⟩ score)) }

/-- scorer.rs `remove_badge`. -/
def remove_badge (auths : Address → Bool) (s : ScorerState) (sender : Address)
    (nm : String) (issuer : Address) : Except Err ScorerState :=
  if auths sender = false then .error .authFailure
  else if ¬ sender ∈ s.managers.getD [] then .error .Unauthorized
  else match s.scorerBadges with
    | none => .error .BadgeNotFound
    | some badges =>
      if ¬ mapHas badges ⟨nm, issuer⟩ then .error .BadgeNotFound
      else .ok { s with scorerBadges := some (mapDrop badges ⟨nm, issuer⟩) }

/-- scorer.rs `upgrade`: creator-gated in-place code swap; on success the
instance's code becomes the new hash, storage is untouched. -/
def upgrade (auths : Address → Bool) (s : ScorerState) (new_wasm_hash : CodeHash) :
    Except Err (ScorerState × CodeHash) :=
  match s.scorerCreator with
  | none => .error .ScorerCreatorNotFound
  | some admin =>
    if auths admin = false then .error .authFailure
    else .ok (s, new_wasm_hash)

end ScorerContract

/-- The chain's record of deployed contract instances: which address holds
which code. -/
structure Ledger where
  contracts : List (Address × CodeHash) := []
deriving DecidableEq, Repr

/-- The host's deterministic address derivation
(`env.deployer().with_address(deployer, salt)`). -/
def derivedAddress (deployer : Address) (salt : Salt) : Address :=
  Address.derivedFrom deployer salt

/-- The host's `.deploy(wasm_hash)`: instantiates the code at the derived
address, failing if that address is already occupied. -/
def hostDeploy (L : Ledger) (deployer : Address) (salt : Salt) (hash : CodeHash) :
    Except Err (Ledger × Address) :=
  if mapHas L.contracts (derivedAddress deployer salt) then .error .addressOccupied
  else .ok ({ contracts := mapSet L.contracts (derivedAddress deployer salt) hash },
            derivedAddress deployer salt)

namespace Deployer

/-- deployer.rs `Deployer::deploy`: skip auth when the deployer is the
Deployer contract itself, deploy at the derived address, then invoke the
initializer (`init` abstracts `invoke_contract` of `init_fn` with
`init_args` on the fresh contract); an initializer failure aborts the
whole call. -/
def deploy (auths : Address → Bool) (selfAddr : Address) (deployer : Address)
    (wasm_hash : CodeHash) (salt : Salt)
    (init : Address → Ledger → Except Err Ledger) (L : Ledger) :
    Except Err (Ledger × Address) :=
  if deployer ≠ selfAddr ∧ auths deployer = false then .error .authFailure
  else match hostDeploy L deployer salt wasm_hash with
    | .error e => .error e
    | .ok (L1, deployed_address) =>
      match init deployed_address L1 with
      | .error e => .error e
      | .ok L2 => .ok (L2, deployed_address)

end Deployer

/-- The ScorerFactory contract's persistent storage slots
(scorer_factory.rs `DataKey`). -/
structure FactoryState where
  createdScorers : Option (List (Address × (String × String × String))) := none
  initialized : Option Bool := none
  scorerFactoryCreator : Option Address := none
  managers : Option (List Address) := none
  scorerWasmHash : Option CodeHash := none
deriving DecidableEq, Repr

/-- The world a factory invocation acts on: the factory's own storage and
the chain's ledger of deployed instances. -/
structure FWorld where
  factory : FactoryState
  ledger : Ledger
deriving DecidableEq, Repr

namespace ScorerFactoryContract

/-- scorer_factory.rs `is_initialized`. -/
def is_initialized (s : FactoryState) : Bool := s.initialized.getD false

/-- scorer_factory.rs `initialize`: the initialized guard, the creator's
auth, then all slots are written (managers seeded with the creator). -/
def initializeOp (auths : Address → Bool) (s : FactoryState)
    (scorer_creator : Address) (scorer_wasm_hash : CodeHash) :
    Except Err FactoryState :=
  if is_initialized s then .error .ContractAlreadyInitialized
  else if auths scorer_creator = false then .error .authFailure
  else .ok { initialized := some true
             scorerFactoryCreator := some scorer_creator
             managers := some [scorer_creator]
             scorerWasmHash := some scorer_wasm_hash
             createdScorers := some [] }

/-- scorer_factory.rs `is_scorer_factory_creator` (panics if the creator
slot is missing). -/
def is_scorer_factory_creator (s : FactoryState) (address : Address) :
    Except Err Bool :=
  match s.scorerFactoryCreator with
  | none => .error .ScorerFactoryCreatorNotFound
  | some creator => .ok (creator = address)

/-- scorer_factory.rs `is_manager` (the managers slot defaults to the
empty vector). -/
def is_manager (s : FactoryState) (address : Address) : Bool :=
  (s.managers.getD []).contains address

/-- scorer_factory.rs `is_authorized`: factory creator or manager. -/
def is_authorized (s : FactoryState) (caller : Address) : Except Err Bool :=
  match s.scorerFactoryCreator with
  | none => .error .ScorerFactoryCreatorNotFound
  | some creator => .ok (creator = caller || is_manager s caller)

/-- scorer_factory.rs `add_manager`. -/
def add_manager (auths : Address → Bool) (s : FactoryState)
    (caller manager : Address) : Except Err FactoryState :=
  if auths caller = false then .error .authFailure
  else match s.scorerFactoryCreator with
    | none => .error .ScorerFactoryCreatorNotFound
    | some creator =>
      if ¬ (creator = caller ∨ is_manager s caller) then .error .Unauthorized
      else if manager ∈ s.managers.getD [] then .error .ManagerAlreadyExists
      else .ok { s with managers := some (s.managers.getD [] ++ [manager]) }

/-- scorer_factory.rs `remove_manager` (no last-manager guard: the first
present occurrence is removed unconditionally). -/
def remove_manager (auths : Address → Bool) (s : FactoryState)
    (caller manager : Address) : Except Err FactoryState :=
  if auths caller = false then .error .authFailure
  else match s.scorerFactoryCreator with
    | none => .error .ScorerFactoryCreatorNotFound
    | some creator =>
      if ¬ (creator = caller ∨ is_manager s caller) then .error .Unauthorized
      else match s.managers with
        | none => .error .ManagersNotFound
        | some ms =>
          if manager ∈ ms then
            .ok { s with managers := some (eraseFirst ms manager) }
          else .error .ManagerNotFound

/-- scorer_factory.rs `get_scorers`. -/
def get_scorers (s : FactoryState) :
    Except Err (List (Address × (String × String × String))) :=
  match s.createdScorers with
  | none => .error .ScorersWereNotFound
  | some cs => .ok cs

/-- scorer_factory.rs `get_managers`. -/
def get_managers (s : FactoryState) : Except Err (List Address) :=
  match s.managers with
  | none => .error .ManagersNotFound
  | some ms => .ok ms

/-- scorer_factory.rs `get_contract_creator`. -/
def get_contract_creator (s : FactoryState) : Except Err Address :=
  match s.scorerFactoryCreator with
  | none => .error .ContractCreatorNotFound
  | some c => .ok c

/-- scorer_factory.rs `remove_scorer` (manager-gated; the directory entry
must exist). -/
def remove_scorer (auths : Address → Bool) (s : FactoryState)
    (caller scorer_address : Address) : Except Err FactoryState :=
  if auths caller = false then .error .authFailure
  else if ¬ is_manager s caller then .error .Unauthorized
  else match s.createdScorers with
    | none => .error .ScorersWereNotFound
    | some cs =>
      if ¬ mapHas cs scorer_address then .error .ScorerNotFound
      else .ok { s with createdScorers := some (mapDrop cs scorer_address) }

/-- scorer_factory.rs `create_scorer`: auth is skipped exactly when the
deployer is the factory itself; at least 3 init args are required; the
stored wasm hash is deployed at the address derived from (deployer, salt);
the initializer (`init` abstracts `invoke_contract` of `init_fn` with
`init_args`) runs in the same transaction; the last three args are read
back as (name, description, icon) strings and recorded in the directory.
Note the code contains no manager check and never raises `Unauthorized`
itself (its doc comment claiming otherwise is stale). -/
def create_scorer (auths : Address → Bool) (factoryAddr : Address)
    (deployer : Address) (salt : Salt) (init_args : List Val)
    (init : Address → FWorld → Except Err FWorld) (w : FWorld) :
    Except Err (FWorld × Address) :=
  if deployer ≠ factoryAddr ∧ auths deployer = false then .error .authFailure
  else if init_args.length < 3 then .error .InvalidInitArgs
  else match w.factory.scorerWasmHash with
    | none => .error .ContractCreatorNotFound
    | some wasm_hash =>
      match hostDeploy w.ledger deployer salt wasm_hash with
      | .error e => .error e
      | .ok (L1, scorer_address) =>
        match init scorer_address { w with ledger := L1 } with
        | .error e => .error e
        | .ok w1 =>
          match stringFromVal (init_args.getD (init_args.length - 1) (Val.other 0)),
                stringFromVal (init_args.getD (init_args.length - 2) (Val.other 0)),
                stringFromVal (init_args.getD (init_args.length - 3) (Val.other 0)) with
          | .ok scorer_icon, .ok scorer_description, .ok scorer_name =>
            .ok ({ w1 with
                     factory := { w1.factory with createdScorers :=
                       (some (mapSet (w1.factory.createdScorers.getD [])
                         scorer_address
                         (scorer_name, scorer_description, scorer_icon))) } },
                 scorer_address)
          | .error e, _, _ => .error e
          | _, .error e, _ => .error e
          | _, _, .error e => .error e

end ScorerFactoryContract

/-- Every external entry point of the ScorerFactory contract, with its
arguments. -/
inductive FactoryCall where
  | initCall (creator : Address) (hash : CodeHash)
  | isInitialized
  | isCreator (address : Address)
  | isManagerCall (address : Address)
  | addManager (caller manager : Address)
  | removeManager (caller manager : Address)
  | getScorers
  | getManagers
  | getCreator
  | removeScorer (caller scorer : Address)
  | createScorer (deployer : Address) (salt : Salt) (args : List Val)
deriving DecidableEq, Repr

/-- Dispatch one factory entry point against the world (read-only entry
points leave the world unchanged; `init` abstracts the cross-contract
initializer invocation of `createScorer`). -/
def runFactoryCall (auths : Address → Bool) (factoryAddr : Address)
    (init : Address → FWorld → Except Err FWorld) (c : FactoryCall)
    (w : FWorld) : Except Err FWorld :=
  match c with
  | .initCall creator hash =>
    match ScorerFactoryContract.initializeOp auths w.factory creator hash with
    | .ok f1 => .ok { w with factory := f1 }
    | .error e => .error e
  | .isInitialized => .ok w
  | .isCreator address =>
    match ScorerFactoryContract.is_scorer_factory_creator w.factory address with
    | .ok _ => .ok w
    | .error e => .error e
  | .isManagerCall _ => .ok w
  | .addManager caller manager =>
    match ScorerFactoryContract.add_manager auths w.factory caller manager with
    | .ok f1 => .ok { w with factory := f1 }
    | .error e => .error e
  | .removeManager caller manager =>
    match ScorerFactoryContract.remove_manager auths w.factory caller manager with
    | .ok f1 => .ok { w with factory := f1 }
    | .error e => .error e
  | .getScorers =>
    match ScorerFactoryContract.get_scorers w.factory with
    | .ok _ => .ok w
    | .error e => .error e
  | .getManagers =>
    match ScorerFactoryContract.get_managers w.factory with
    | .ok _ => .ok w
    | .error e => .error e
  | .getCreator =>
    match ScorerFactoryContract.get_contract_creator w.factory with
    | .ok _ => .ok w
    | .error e => .error e
  | .removeScorer caller scorer =>
    match ScorerFactoryContract.remove_scorer auths w.factory caller scorer with
    | .ok f1 => .ok { w with factory := f1 }
    | .error e => .error e
  | .createScorer deployer salt args =>
    match ScorerFactoryContract.create_scorer auths factoryAddr deployer salt
        args init w with
    | .ok (w1, _) => .ok w1
    | .error e => .error e

/-- The manager list a Scorer instance stores (empty when the slot is
missing, as `manager_exists` reads it). -/
def managersOfS (s : ScorerState) : List Address := s.managers.getD []

/-- The manager list a ScorerFactory instance stores (empty when the slot
is missing, as `is_manager` reads it). -/
def managersOfF (s : FactoryState) : List Address := s.managers.getD []

/-- One add-manager or remove-manager request, with its caller and
target. -/
inductive MgrCmd where
  | add (caller target : Address)
  | rem (caller target : Address)
deriving DecidableEq, Repr

/-- Apply one manager request to a Scorer instance as one transaction: a
failing call commits nothing. -/
def scorerMgrStep (auths : Address → Bool) (s : ScorerState) : MgrCmd → ScorerState
  | .add c t => runTx1 (fun st => ScorerContract.add_manager auths st c t) s
  | .rem c t => runTx1 (fun st => ScorerContract.remove_manager auths st c t) s

/-- Run a sequence of manager requests against a Scorer instance. -/
def scorerMgrRun (auths : Address → Bool) : List MgrCmd → ScorerState → ScorerState
  | [], s => s
  | c :: cs, s => scorerMgrRun auths cs (scorerMgrStep auths s c)

/-- Apply one manager request to a ScorerFactory instance as one
transaction: a failing call commits nothing. -/
def factoryMgrStep (auths : Address → Bool) (s : FactoryState) : MgrCmd → FactoryState
  | .add c t => runTx1 (fun st => ScorerFactoryContract.add_manager auths st c t) s
  | .rem c t => runTx1 (fun st => ScorerFactoryContract.remove_manager auths st c t) s

/-- Run a sequence of manager requests against a ScorerFactory
instance. -/
def factoryMgrRun (auths : Address → Bool) : List MgrCmd → FactoryState → FactoryState
  | [], s => s
  | c :: cs, s => factoryMgrRun auths cs (factoryMgrStep auths s c)

/-- Transaction envelope for an entry point that also returns a value:
a failed invocation commits nothing. -/
def runTx {σ α : Type} (f : σ → Except Err (σ × α)) (s : σ) : σ :=
  match f s with
  | .ok (s1, _) => s1
  | .error _ => s

/-- An environment in which every address has authorized the current
invocation (the test suites' `mock_all_auths`). -/
def authsT : Address → Bool := fun _ => true

/-- Concrete creator address used in the concrete scenarios. -/
def addrC : Address := Address.acct 1

/-- Concrete non-creator address used in the concrete scenarios. -/
def addrU : Address := Address.acct 2

/-- Concrete badge-issuer address used in the concrete scenarios. -/
def addrI : Address := Address.acct 3

/-- The Scorer state produced by a successful
`initializeOp authsT freshScorer addrC [] "n" "d" "i"`. -/
def scorerInit : ScorerState :=
  { scorerCreator := some addrC
    scorerBadges := some []
    users := some []
    managers := some [addrC]
    initialized := some true
    name := some "n"
    description := some "d"
    icon := some "i" }

/-- The ScorerFactory state produced by a successful
`initializeOp authsT {} addrC 7`. -/
def factoryInit : FactoryState :=
  { createdScorers := some []
    initialized := some true
    scorerFactoryCreator := some addrC
    managers := some [addrC]
    scorerWasmHash := some 7 }

/-- A chain with no deployed contracts. -/
def emptyLedger : Ledger := {}

/-- A world holding an initialized factory over an empty chain. -/
def worldInit : FWorld := { factory := factoryInit, ledger := emptyLedger }

/-!  Helper lemmas about the storage primitives. -/

theorem mapGet_mapSet_self {K V : Type} [DecidableEq K]
    (m : List (K × V)) (k : K) (v : V) : mapGet (mapSet m k v) k = some v := by
  induction m with
  | nil => simp [mapGet, mapSet]
  | cons p rest ih =>
    by_cases h : p.1 = k
    · simp [mapGet, mapSet, h]
    · simpa [mapGet, mapSet, h] using ih

theorem mapHas_mapSet_self {K V : Type} [DecidableEq K]
    (m : List (K × V)) (k : K) (v : V) : mapHas (mapSet m k v) k = true := by
  simp [mapHas, mapGet_mapSet_self]

theorem eraseFirst_sublist (l : List Address) (a : Address) :
    (eraseFirst l a).Sublist l := by
  induction l with
  | nil => simp [eraseFirst]
  | cons x xs ih =>
    by_cases h : x = a
    · subst h
      simp only [eraseFirst, if_pos]
      exact List.sublist_cons_self x xs
    · simpa [eraseFirst, h] using ih.cons₂ x

theorem nodup_eraseFirst (l : List Address) (a : Address) (h : l.Nodup) :
    (eraseFirst l a).Nodup := (eraseFirst_sublist l a).nodup h

theorem nodup_append_one (l : List Address) (a : Address)
    (h : l.Nodup) (hna : a ∉ l) : (l ++ [a]).Nodup := by
  induction l with
  | nil => simp
  | cons x xs ih =>
    rcases List.nodup_cons.mp h with ⟨hx, hxs⟩
    have hax : a ≠ x := fun he => hna (he ▸ List.mem_cons_self x xs)
    have haxs : a ∉ xs := fun he => hna (List.mem_cons_of_mem x he)
    refine List.nodup_cons.mpr ⟨?_, ih hxs haxs⟩
    intro hmem
    rcases List.mem_append.mp hmem with h1 | h1
    · exact hx h1
    · have hxa : x = a := by simpa using h1
      exact hax hxa.symm

theorem runTx1_error {σ : Type} (f : σ → Except Err σ) (s : σ) (e : Err)
    (h : f s = .error e) : runTx1 f s = s := by
  simp [runTx1, h]

theorem runTx_error {σ α : Type} (f : σ → Except Err (σ × α)) (s : σ) (e : Err)
    (h : f s = .error e) : runTx f s = s := by
  simp [runTx, h]

/-!  Inversion lemmas: what a successful manager mutation did. -/

theorem scorer_add_manager_ok (auths : Address → Bool) (s s1 : ScorerState)
    (c t : Address) (h : ScorerContract.add_manager auths s c t = .ok s1) :
    t ∉ s.managers.getD [] ∧
      s1 = { s with managers := some (s.managers.getD [] ++ [t]) } := by
  unfold ScorerContract.add_manager at h
  split at h
  · exact absurd h (by simp)
  · split at h
    · exact absurd h (by simp)
    · split at h
      · exact absurd h (by simp)
      · split at h
        · exact absurd h (by simp)
        · next hmem => exact ⟨hmem, by injection h with h1; exact h1.symm⟩

theorem scorer_remove_manager_ok (auths : Address → Bool) (s s1 : ScorerState)
    (c t : Address) (h : ScorerContract.remove_manager auths s c t = .ok s1) :
    s1 = { s with managers := some (eraseFirst (s.managers.getD []) t) } := by
  unfold ScorerContract.remove_manager at h
  split at h
  · exact absurd h (by simp)
  · split at h
    · exact absurd h (by simp)
    · split at h
      · exact absurd h (by simp)
      · split at h
        · injection h with h1; exact h1.symm
        · exact absurd h (by simp)

theorem factory_add_manager_ok (auths : Address → Bool) (s s1 : FactoryState)
    (c t : Address) (h : ScorerFactoryContract.add_manager auths s c t = .ok s1) :
    t ∉ s.managers.getD [] ∧
      s1 = { s with managers := some (s.managers.getD [] ++ [t]) } := by
  unfold ScorerFactoryContract.add_manager at h
  split at h
  · exact absurd h (by simp)
  · split at h
    · exact absurd h (by simp)
    · split at h
      · exact absurd h (by simp)
      · split at h
        · exact absurd h (by simp)
        · next hmem => exact ⟨hmem, by injection h with h1; exact h1.symm⟩

theorem factory_remove_manager_ok (auths : Address → Bool) (s s1 : FactoryState)
    (c t : Address) (h : ScorerFactoryContract.remove_manager auths s c t = .ok s1) :
    ∃ ms, s.managers = some ms ∧
      s1 = { s with managers := some (eraseFirst ms t) } := by
  unfold ScorerFactoryContract.remove_manager at h
  split at h
  · exact absurd h (by simp)
  · split at h
    · exact absurd h (by simp)
    · split at h
      · exact absurd h (by simp)
      · split at h
        · exact absurd h (by simp)
        · next ms hms =>
            split at h
            · exact ⟨ms, hms, by injection h with h1; exact h1.symm⟩
            · exact absurd h (by simp)

/-!  The manager list never acquires duplicates. -/

theorem nodup_scorerMgrStep (auths : Address → Bool) (s : ScorerState)
    (c : MgrCmd) (h : (managersOfS s).Nodup) :
    (managersOfS (scorerMgrStep auths s c)).Nodup := by
  cases c with
  | add cl t =>
    rcases he : ScorerContract.add_manager auths s cl t with e | s1
    · simpa [scorerMgrStep, runTx1, he] using h
    · obtain ⟨hnm, hs1⟩ := scorer_add_manager_ok auths s s1 cl t he
      subst hs1
      simp only [scorerMgrStep, runTx1, he]
      simpa [managersOfS] using nodup_append_one _ t h hnm
  | rem cl t =>
    rcases he : ScorerContract.remove_manager auths s cl t with e | s1
    · simpa [scorerMgrStep, runTx1, he] using h
    · have hs1 := scorer_remove_manager_ok auths s s1 cl t he
      subst hs1
      simp only [scorerMgrStep, runTx1, he]
      simpa [managersOfS] using nodup_eraseFirst _ t h

theorem nodup_scorerMgrRun (auths : Address → Bool) (cmds : List MgrCmd)
    (s : ScorerState) (h : (managersOfS s).Nodup) :
    (managersOfS (scorerMgrRun auths cmds s)).Nodup := by
  induction cmds generalizing s with
  | nil => exact h
  | cons c cs ih => exact ih _ (nodup_scorerMgrStep auths s c h)

theorem nodup_factoryMgrStep (auths : Address → Bool) (s : FactoryState)
    (c : MgrCmd) (h : (managersOfF s).Nodup) :
    (managersOfF (factoryMgrStep auths s c)).Nodup := by
  cases c with
  | add cl t =>
    rcases he : ScorerFactoryContract.add_manager auths s cl t with e | s1
    · simpa [factoryMgrStep, runTx1, he] using h
    · obtain ⟨hnm, hs1⟩ := factory_add_manager_ok auths s s1 cl t he
      subst hs1
      simp only [factoryMgrStep, runTx1, he]
      simpa [managersOfF] using nodup_append_one _ t h hnm
  | rem cl t =>
    rcases he : ScorerFactoryContract.remove_manager auths s cl t with e | s1
    · simpa [factoryMgrStep, runTx1, he] using h
    · obtain ⟨ms, hms, hs1⟩ := factory_remove_manager_ok auths s s1 cl t he
      subst hs1
      have hmf : managersOfF s = ms := by simp [managersOfF, hms]
      simp only [factoryMgrStep, runTx1, he, managersOfF, Option.getD_some]
      exact nodup_eraseFirst _ t (hmf ▸ h)

theorem nodup_factoryMgrRun (auths : Address → Bool) (cmds : List MgrCmd)
    (s : FactoryState) (h : (managersOfF s).Nodup) :
    (managersOfF (factoryMgrRun auths cmds s)).Nodup := by
  induction cmds generalizing s with
  | nil => exact h
  | cons c cs ih => exact ih _ (nodup_factoryMgrStep auths s c h)

/-- C6: on both the Scorer and the ScorerFactory, no sequence of
add-manager/remove-manager calls ever puts a duplicate address into the
stored manager list; adding an already-present manager fails with
`ManagerAlreadyExists` and leaves the state unchanged; removing an absent
manager fails with `ManagerNotFound` and leaves the state unchanged. -/
theorem manager_set_invariants (auths : Address → Bool) (cmds : List MgrCmd)
    (s0 : ScorerState) (f0 : FactoryState)
    (sB : ScorerState) (cB tB : Address)
    (sC : ScorerState) (cC tC : Address)
    (fB : FactoryState) (cF tF crF : Address)
    (fC : FactoryState) (cG tG crG : Address) (msG : List Address)
    (h0 : (managersOfS s0).Nodup) (h1 : (managersOfF f0).Nodup)
    (hB1 : auths cB = true) (hB2 : sB.scorerCreator = some cB)
    (hB3 : tB ∈ managersOfS sB)
    (hC1 : auths cC = true) (hC2 : sC.scorerCreator = some cC)
    (hC3 : tC ∉ managersOfS sC)
    (hF1 : auths cF = true) (hF2 : fB.scorerFactoryCreator = some crF)
    (hF3 : crF = cF ∨ ScorerFactoryContract.is_manager fB cF)
    (hF4 : tF ∈ managersOfF fB)
    (hG1 : auths cG = true) (hG2 : fC.scorerFactoryCreator = some crG)
    (hG3 : crG = cG ∨ ScorerFactoryContract.is_manager fC cG)
    (hG4 : fC.managers = some msG) (hG5 : tG ∉ msG) :
    (managersOfS (scorerMgrRun auths cmds s0)).Nodup ∧
    (managersOfF (factoryMgrRun auths cmds f0)).Nodup ∧
    ScorerContract.add_manager auths sB cB tB = .error .ManagerAlreadyExists ∧
    runTx1 (fun st => ScorerContract.add_manager auths st cB tB) sB = sB ∧
    ScorerContract.remove_manager auths sC cC tC = .error .ManagerNotFound ∧
    runTx1 (fun st => ScorerContract.remove_manager auths st cC tC) sC = sC ∧
    ScorerFactoryContract.add_manager auths fB cF tF =
      .error .ManagerAlreadyExists ∧
    runTx1 (fun st => ScorerFactoryContract.add_manager auths st cF tF) fB = fB ∧
    ScorerFactoryContract.remove_manager auths fC cG tG =
      .error .ManagerNotFound ∧
    runTx1 (fun st => ScorerFactoryContract.remove_manager auths st cG tG) fC =
      fC := by
  have hb : ScorerContract.add_manager auths sB cB tB =
      .error .ManagerAlreadyExists := by
    simp only [managersOfS] at hB3
    simp [ScorerContract.add_manager, hB1, hB2, hB3]
  have hc : ScorerContract.remove_manager auths sC cC tC =
      .error .ManagerNotFound := by
    simp only [managersOfS] at hC3
    simp [ScorerContract.remove_manager, hC1, hC2, hC3]
  have hf : ScorerFactoryContract.add_manager auths fB cF tF =
      .error .ManagerAlreadyExists := by
    simp only [managersOfF] at hF4
    simp [ScorerFactoryContract.add_manager, hF1, hF2, hF4, hF3]
  have hg : ScorerFactoryContract.remove_manager auths fC cG tG =
      .error .ManagerNotFound := by
    simp [ScorerFactoryContract.remove_manager, hG1, hG2, hG3, hG4, hG5]
  exact ⟨nodup_scorerMgrRun auths cmds s0 h0,
    nodup_factoryMgrRun auths cmds f0 h1,
    hb, runTx1_error _ _ _ hb,
    hc, runTx1_error _ _ _ hc,
    hf, runTx1_error _ _ _ hf,
    hg, runTx1_error _ _ _ hg⟩

/-- C6 witness: concrete duplicate-add and absent-remove scenarios on
initialized instances, plus a concrete command sequence. -/
theorem manager_set_invariants_witness :
    (managersOfS (scorerMgrRun authsT
        [MgrCmd.add addrC addrU, MgrCmd.add addrC addrU, MgrCmd.rem addrC addrU]
        scorerInit)).Nodup ∧
    (managersOfF (factoryMgrRun authsT
        [MgrCmd.add addrC addrU, MgrCmd.add addrC addrU, MgrCmd.rem addrC addrU]
        factoryInit)).Nodup ∧
    ScorerContract.add_manager authsT scorerInit addrC addrC =
      .error .ManagerAlreadyExists ∧
    runTx1 (fun st => ScorerContract.add_manager authsT st addrC addrC)
      scorerInit = scorerInit ∧
    ScorerContract.remove_manager authsT scorerInit addrC addrU =
      .error .ManagerNotFound ∧
    runTx1 (fun st => ScorerContract.remove_manager authsT st addrC addrU)
      scorerInit = scorerInit ∧
    ScorerFactoryContract.add_manager authsT factoryInit addrC addrC =
      .error .ManagerAlreadyExists ∧
    runTx1 (fun st => ScorerFactoryContract.add_manager authsT st addrC addrC)
      factoryInit = factoryInit ∧
    ScorerFactoryContract.remove_manager authsT factoryInit addrC addrU =
      .error .ManagerNotFound ∧
    runTx1 (fun st => ScorerFactoryContract.remove_manager authsT st addrC addrU)
      factoryInit = factoryInit :=
  manager_set_invariants authsT
    [MgrCmd.add addrC addrU, MgrCmd.add addrC addrU, MgrCmd.rem addrC addrU]
    scorerInit factoryInit
    scorerInit addrC addrC
    scorerInit addrC addrU
    factoryInit addrC addrC addrC
    factoryInit addrC addrU addrC [addrC]
    (by decide) (by decide)
    rfl rfl (by decide)
    rfl rfl (by decide)
    rfl rfl (by decide) (by decide)
    rfl rfl (by decide) rfl (by decide)

/-- C7: on the Scorer, `add_manager` and `remove_manager` demand that the
sender equal the stored creator: any other sender — even one already on
the manager list — gets `Unauthorized` and the state is unchanged. -/
theorem scorer_manager_mutation_creator_only (auths : Address → Bool)
    (s : ScorerState) (sender target creator : Address)
    (hauth : auths sender = true) (hcr : s.scorerCreator = some creator)
    (hne : sender ≠ creator) :
    ScorerContract.add_manager auths s sender target = .error .Unauthorized ∧
    runTx1 (fun st => ScorerContract.add_manager auths st sender target) s = s ∧
    ScorerContract.remove_manager auths s sender target =
      .error .Unauthorized ∧
    runTx1 (fun st => ScorerContract.remove_manager auths st sender target) s =
      s := by
  have ha : ScorerContract.add_manager auths s sender target =
      .error .Unauthorized := by
    simp [ScorerContract.add_manager, hauth, hcr, hne]
  have hr : ScorerContract.remove_manager auths s sender target =
      .error .Unauthorized := by
    simp [ScorerContract.remove_manager, hauth, hcr, hne]
  exact ⟨ha, runTx1_error _ _ _ ha, hr, runTx1_error _ _ _ hr⟩

/-- C7 witness: on a freshly initialized Scorer with creator `addrC`, the
non-creator `addrU` calling `add_manager(addrU, addrU)` (and the
corresponding remove) fails `Unauthorized` and the manager list is still
`[addrC]`. -/
theorem scorer_manager_mutation_creator_only_witness :
    ScorerContract.add_manager authsT scorerInit addrU addrU =
      .error .Unauthorized ∧
    runTx1 (fun st => ScorerContract.add_manager authsT st addrU addrU)
      scorerInit = scorerInit ∧
    ScorerContract.remove_manager authsT scorerInit addrU addrU =
      .error .Unauthorized ∧
    runTx1 (fun st => ScorerContract.remove_manager authsT st addrU addrU)
      scorerInit = scorerInit :=
  scorer_manager_mutation_creator_only authsT scorerInit addrU addrU addrC
    rfl rfl (by decide)

/-- C9: on a Scorer whose user registry does not yet hold `u`, the
sequence add-user, remove-user, add-user (each authorized by `u`)
succeeds at every step; after the remove the registry still holds the key
`u` mapped to `false`, and after the final add `get_users` reports `u`
active again. -/
theorem user_toggle_round_trip (auths : Address → Bool) (s : ScorerState)
    (u : Address) (hauth : auths u = true)
    (hfresh : mapGet (s.users.getD []) u = none) :
    ScorerContract.add_user auths s u =
      .ok { s with users := some (mapSet (s.users.getD []) u true) } ∧
    mapGet (ScorerContract.get_users
      { s with users := some (mapSet (s.users.getD []) u true) }) u =
      some true ∧
    ScorerContract.remove_user auths
      { s with users := some (mapSet (s.users.getD []) u true) } u =
      .ok { s with users :=
        (some (mapSet (mapSet (s.users.getD []) u true) u false)) } ∧
    mapGet (ScorerContract.get_users
      { s with users :=
        (some (mapSet (mapSet (s.users.getD []) u true) u false)) }) u =
      some false ∧
    mapHas (ScorerContract.get_users
      { s with users :=
        (some (mapSet (mapSet (s.users.getD []) u true) u false)) }) u =
      true ∧
    ScorerContract.add_user auths
      { s with users :=
        (some (mapSet (mapSet (s.users.getD []) u true) u false)) } u =
      .ok { s with users :=
        (some (mapSet (mapSet (mapSet (s.users.getD []) u true) u false)
          u true)) } ∧
    mapGet (ScorerContract.get_users
      { s with users :=
        (some (mapSet (mapSet (mapSet (s.users.getD []) u true) u false)
          u true)) }) u = some true := by
  refine ⟨?_, ?_, ?_, ?_, ?_, ?_, ?_⟩
  · simp [ScorerContract.add_user, hauth, hfresh]
  · simp [ScorerContract.get_users, mapGet_mapSet_self]
  · simp [ScorerContract.remove_user, hauth, mapGet_mapSet_self]
  · simp [ScorerContract.get_users, mapGet_mapSet_self]
  · simp [ScorerContract.get_users, mapHas, mapGet_mapSet_self]
  · simp [ScorerContract.add_user, hauth, mapGet_mapSet_self]
  · simp [ScorerContract.get_users, mapGet_mapSet_self]

/-- C9 witness: the toggle round-trip run concretely for user `addrU` on
a freshly initialized Scorer. -/
theorem user_toggle_round_trip_witness :
    ScorerContract.add_user authsT scorerInit addrU =
      .ok { scorerInit with users :=
        (some (mapSet (scorerInit.users.getD []) addrU true)) } ∧
    mapGet (ScorerContract.get_users
      { scorerInit with users :=
        (some (mapSet (scorerInit.users.getD []) addrU true)) }) addrU =
      some true ∧
    ScorerContract.remove_user authsT
      { scorerInit with users :=
        (some (mapSet (scorerInit.users.getD []) addrU true)) } addrU =
      .ok { scorerInit with users :=
        (some (mapSet (mapSet (scorerInit.users.getD []) addrU true)
          addrU false)) } ∧
    mapGet (ScorerContract.get_users
      { scorerInit with users :=
        (some (mapSet (mapSet (scorerInit.users.getD []) addrU true)
          addrU false)) }) addrU = some false ∧
    mapHas (ScorerContract.get_users
      { scorerInit with users :=
        (some (mapSet (mapSet (scorerInit.users.getD []) addrU true)
          addrU false)) }) addrU = true ∧
    ScorerContract.add_user authsT
      { scorerInit with users :=
        (some (mapSet (mapSet (scorerInit.users.getD []) addrU true)
          addrU false)) } addrU =
      .ok { scorerInit with users :=
        (some (mapSet (mapSet (mapSet (scorerInit.users.getD []) addrU true)
          addrU false) addrU true)) } ∧
    mapGet (ScorerContract.get_users
      { scorerInit with users :=
        (some (mapSet (mapSet (mapSet (scorerInit.users.getD []) addrU true)
          addrU false) addrU true)) }) addrU = some true :=
  user_toggle_round_trip authsT scorerInit addrU rfl rfl

theorem isOk_error {σ : Type} (e : Err) :
    (Except.error e : Except Err σ).isOk = false := rfl

theorem isOk_ok {σ : Type} (s : σ) :
    (Except.ok s : Except Err σ).isOk = true := rfl

theorem scorer_initializeOp_ok (auths : Address → Bool) (s s1 : ScorerState)
    (c : Address) (b : List (BadgeId × Nat)) (nm ds ic : String)
    (h : ScorerContract.initializeOp auths s c b nm ds ic = .ok s1) :
    ScorerContract.is_initialized s1 = true := by
  unfold ScorerContract.initializeOp at h
  split at h
  · exact absurd h (by simp)
  · split at h
    · exact absurd h (by simp)
    · split at h
      · exact absurd h (by simp)
      · injection h with h1
        rw [← h1]
        rfl

theorem factory_initializeOp_ok (auths : Address → Bool) (s s1 : FactoryState)
    (c : Address) (hash : CodeHash)
    (h : ScorerFactoryContract.initializeOp auths s c hash = .ok s1) :
    ScorerFactoryContract.is_initialized s1 = true := by
  unfold ScorerFactoryContract.initializeOp at h
  split at h
  · exact absurd h (by simp)
  · split at h
    · exact absurd h (by simp)
    · injection h with h1
      rw [← h1]
      rfl

/-- C3 counterexample: on the Scorer, after a successful initialization,
a second `initializeOp` whose name argument is empty fails with
`EmptyArg`, not `ContractAlreadyInitialized` (the empty-string check runs
before the initialized guard), refuting "any second call fails with
AlreadyInitialized". -/
theorem second_initializeOp_emptyarg_counterexample :
    ScorerContract.initializeOp authsT freshScorer addrC [] "n" "d" "i" =
      .ok scorerInit ∧
    ScorerContract.initializeOp authsT scorerInit addrC [] "" "d" "i" =
      .error .EmptyArg ∧
    Err.EmptyArg ≠ Err.ContractAlreadyInitialized :=
  ⟨rfl, rfl, by decide⟩

/-- C3 (amended): once `initializeOp` has succeeded, every second call
fails and leaves the stored state unchanged; on the ScorerFactory the
error is always `ContractAlreadyInitialized`, and on the Scorer it is
`ContractAlreadyInitialized` whenever the three display strings are
non-empty (with an empty string it is `EmptyArg` instead, but the call
still fails). -/
theorem second_initializeOp_fails (authsF authsF2 authsS authsS2 authsS3 :
      Address → Bool)
    (fs fs1 : FactoryState) (cF cF2 : Address) (hF hF2 : CodeHash)
    (ss ss1 : ScorerState) (cS cS2 cS3 : Address)
    (bS bS2 bS3 : List (BadgeId × Nat))
    (nm ds ic nm2 ds2 ic2 nm3 ds3 ic3 : String)
    (hFok : ScorerFactoryContract.initializeOp authsF fs cF hF = .ok fs1)
    (hSok : ScorerContract.initializeOp authsS ss cS bS nm ds ic = .ok ss1)
    (hnm2 : nm2 ≠ "") (hds2 : ds2 ≠ "") (hic2 : ic2 ≠ "") :
    ScorerFactoryContract.initializeOp authsF2 fs1 cF2 hF2 =
      .error .ContractAlreadyInitialized ∧
    runTx1 (fun st => ScorerFactoryContract.initializeOp authsF2 st cF2 hF2)
      fs1 = fs1 ∧
    ScorerContract.initializeOp authsS2 ss1 cS2 bS2 nm2 ds2 ic2 =
      .error .ContractAlreadyInitialized ∧
    runTx1 (fun st => ScorerContract.initializeOp authsS2 st cS2 bS2 nm2 ds2 ic2)
      ss1 = ss1 ∧
    (ScorerContract.initializeOp authsS3 ss1 cS3 bS3 nm3 ds3 ic3).isOk =
      false ∧
    runTx1 (fun st => ScorerContract.initializeOp authsS3 st cS3 bS3 nm3 ds3 ic3)
      ss1 = ss1 := by
  have hfi := factory_initializeOp_ok authsF fs fs1 cF hF hFok
  have hsi := scorer_initializeOp_ok authsS ss ss1 cS bS nm ds ic hSok
  have h1 : ScorerFactoryContract.initializeOp authsF2 fs1 cF2 hF2 =
      .error .ContractAlreadyInitialized := by
    simp [ScorerFactoryContract.initializeOp, hfi]
  have h3 : ScorerContract.initializeOp authsS2 ss1 cS2 bS2 nm2 ds2 ic2 =
      .error .ContractAlreadyInitialized := by
    simp [ScorerContract.initializeOp, hsi, hnm2, hds2, hic2]
  have h5 : (ScorerContract.initializeOp authsS3 ss1 cS3 bS3 nm3 ds3 ic3).isOk =
      false := by
    by_cases he : nm3 = "" ∨ ds3 = "" ∨ ic3 = ""
    · simp [ScorerContract.initializeOp, he, isOk_error]
    · simp [ScorerContract.initializeOp, he, hsi, isOk_error]
  have h6 : ScorerContract.initializeOp authsS3 ss1 cS3 bS3 nm3 ds3 ic3 =
      .error .EmptyArg ∨
      ScorerContract.initializeOp authsS3 ss1 cS3 bS3 nm3 ds3 ic3 =
      .error .ContractAlreadyInitialized := by
    by_cases he : nm3 = "" ∨ ds3 = "" ∨ ic3 = ""
    · exact Or.inl (by simp [ScorerContract.initializeOp, he])
    · exact Or.inr (by simp [ScorerContract.initializeOp, he, hsi])
  refine ⟨h1, runTx1_error _ _ _ h1, h3, runTx1_error _ _ _ h3, h5, ?_⟩
  rcases h6 with h6 | h6
  · exact runTx1_error _ _ _ h6
  · exact runTx1_error _ _ _ h6

/-- C3 witness: the amended statement at concrete inputs (factory and
scorer both initialized by `addrC`; the second calls use fresh
arguments). -/
theorem second_initializeOp_fails_witness :
    ScorerFactoryContract.initializeOp authsT factoryInit addrU 9 =
      .error .ContractAlreadyInitialized ∧
    runTx1 (fun st => ScorerFactoryContract.initializeOp authsT st addrU 9)
      factoryInit = factoryInit ∧
    ScorerContract.initializeOp authsT scorerInit addrU [] "x" "y" "z" =
      .error .ContractAlreadyInitialized ∧
    runTx1 (fun st => ScorerContract.initializeOp authsT st addrU [] "x" "y" "z")
      scorerInit = scorerInit ∧
    (ScorerContract.initializeOp authsT scorerInit addrU [] "" "y" "z").isOk =
      false ∧
    runTx1 (fun st => ScorerContract.initializeOp authsT st addrU [] "" "y" "z")
      scorerInit = scorerInit :=
  second_initializeOp_fails authsT authsT authsT authsT authsT
    ({} : FactoryState) factoryInit addrC addrU 7 9
    freshScorer scorerInit addrC addrU addrU [] [] []
    "n" "d" "i" "x" "y" "z" "" "y" "z"
    rfl rfl (by decide) (by decide) (by decide)

/-- C5 counterexample: on a Scorer whose storage was never initialized,
`add_user` succeeds and mutates state (the users slot is created on the
fly), refuting "every operation other than initialize fails before
initialize". -/
theorem add_user_before_init_counterexample :
    ScorerContract.is_initialized freshScorer = false ∧
    ScorerContract.add_user authsT freshScorer addrU =
      .ok { freshScorer with users := some [(addrU, true)] } ∧
    ({ freshScorer with users := some [(addrU, true)] } : ScorerState) ≠
      freshScorer := ⟨rfl, rfl, by decide⟩

/-- C5 (amended): on an uninitialized Scorer every mutating entry point
other than `add_user` fails — `add_manager`, `remove_manager` and
`upgrade` because the creator slot is missing, `add_badge` and
`remove_badge` with `Unauthorized` because the manager list is empty,
`remove_user` with `UserDoesNotExist` because the users slot is missing —
while `add_user`, the exception, succeeds and creates the user map. -/
theorem uninitialized_scorer_ops (auths : Address → Bool)
    (sender target u1 u2 issuer : Address) (nm : String) (score : Nat)
    (hash : CodeHash) (hauth : auths u2 = true) :
    (ScorerContract.add_manager auths freshScorer sender target).isOk =
      false ∧
    (ScorerContract.remove_manager auths freshScorer sender target).isOk =
      false ∧
    (ScorerContract.remove_user auths freshScorer u1).isOk = false ∧
    (ScorerContract.add_badge auths freshScorer sender nm issuer score).isOk =
      false ∧
    (ScorerContract.remove_badge auths freshScorer sender nm issuer).isOk =
      false ∧
    (ScorerContract.upgrade auths freshScorer hash).isOk = false ∧
    ScorerContract.add_user auths freshScorer u2 =
      .ok { freshScorer with users := some [(u2, true)] } := by
  refine ⟨?_, ?_, ?_, ?_, ?_, ?_, ?_⟩
  · cases hx : auths sender <;>
      simp [ScorerContract.add_manager, freshScorer, hx, isOk_error]
  · cases hx : auths sender <;>
      simp [ScorerContract.remove_manager, freshScorer, hx, isOk_error]
  · cases hx : auths u1 <;>
      simp [ScorerContract.remove_user, freshScorer, hx, isOk_error]
  · cases hx : auths sender <;>
      simp [ScorerContract.add_badge, freshScorer, hx, isOk_error]
  · cases hx : auths sender <;>
      simp [ScorerContract.remove_badge, freshScorer, hx, isOk_error]
  · simp [ScorerContract.upgrade, freshScorer, isOk_error]
  · simp [ScorerContract.add_user, freshScorer, hauth, mapGet, mapSet]

/-- C5 witness: the amended statement at concrete inputs. -/
theorem uninitialized_scorer_ops_witness :
    (ScorerContract.add_manager authsT freshScorer addrC addrU).isOk =
      false ∧
    (ScorerContract.remove_manager authsT freshScorer addrC addrU).isOk =
      false ∧
    (ScorerContract.remove_user authsT freshScorer addrU).isOk = false ∧
    (ScorerContract.add_badge authsT freshScorer addrC "B" addrI 100).isOk =
      false ∧
    (ScorerContract.remove_badge authsT freshScorer addrC "B" addrI).isOk =
      false ∧
    (ScorerContract.upgrade authsT freshScorer 7).isOk = false ∧
    ScorerContract.add_user authsT freshScorer addrU =
      .ok { freshScorer with users := some [(addrU, true)] } :=
  uninitialized_scorer_ops authsT addrC addrU addrU addrU addrI "B" 100 7 rfl

/-- C8 counterexample: an authorized manager adding a fresh, non-empty
badge with score 0 — outside the claimed valid range `0 < score ≤ 10000`
— succeeds instead of failing with `InvalidScoreRange`: the code only
rejects `score > 10000` and accepts zero. -/
theorem add_badge_zero_score_counterexample :
    addrC ∈ scorerInit.managers.getD [] ∧
    ("B" : String) ≠ "" ∧
    mapHas (scorerInit.scorerBadges.getD []) ⟨"B", addrI⟩ = false ∧
    ¬ 0 < 0 ∧
    ScorerContract.add_badge authsT scorerInit addrC "B" addrI 0 =
      .ok { scorerInit with scorerBadges := some [(⟨"B", addrI⟩, 0)] } :=
  ⟨by decide, by decide, rfl, by decide, rfl⟩

/-- C8 (amended): for an authorized manager, a non-empty name and a fresh
`(name, issuer)` key, `add_badge` succeeds exactly when `score ≤ 10000`
(zero included); a score above 10000 fails with `InvalidScoreRange`
leaving the badge map unchanged. -/
theorem add_badge_score_range (auths : Address → Bool) (s : ScorerState)
    (sender : Address) (nm : String) (issuer : Address) (score : Nat)
    (hauth : auths sender = true) (hmgr : sender ∈ s.managers.getD [])
    (hnm : nm ≠ "")
    (hfresh : mapHas (s.scorerBadges.getD []) ⟨nm, issuer⟩ = false) :
    ((ScorerContract.add_badge auths s sender nm issuer score).isOk = true ↔
      score ≤ 10000) ∧
    (10000 < score →
      ScorerContract.add_badge auths s sender nm issuer score =
        .error .InvalidScoreRange) ∧
    (10000 < score →
      runTx1 (fun st => ScorerContract.add_badge auths st sender nm issuer score)
        s = s) := by
  by_cases hs : score ≤ 10000
  · have hok : ScorerContract.add_badge auths s sender nm issuer score =
        .ok { s with scorerBadges :=
          (some (mapSet (s.scorerBadges.getD []) ⟨nm, issuer⟩ score)) } := by
      simp [ScorerContract.add_badge, hauth, hmgr, hnm, hfresh,
        Nat.not_lt.mpr hs]
    refine ⟨by simp [hok, isOk_ok, hs], ?_, ?_⟩
    · intro hlt
      exact absurd hlt (by omega)
    · intro hlt
      exact absurd hlt (by omega)
  · have herr : ScorerContract.add_badge auths s sender nm issuer score =
        .error .InvalidScoreRange := by
      simp [ScorerContract.add_badge, hauth, hmgr, hnm, hfresh,
        Nat.lt_of_not_le hs]
    refine ⟨?_, fun _ => herr, fun _ => runTx1_error _ _ _ herr⟩
    simp only [herr, isOk_error]
    constructor
    · intro hfalse
      exact absurd hfalse (by simp)
    · intro hle
      exact absurd hle hs

/-- C8 witness: the amended statement at a concrete out-of-range score
(10001) on a freshly initialized Scorer. -/
theorem add_badge_score_range_witness :
    ((ScorerContract.add_badge authsT scorerInit addrC "B" addrI 10001).isOk =
        true ↔ (10001 : Nat) ≤ 10000) ∧
    ((10000 : Nat) < 10001 →
      ScorerContract.add_badge authsT scorerInit addrC "B" addrI 10001 =
        .error .InvalidScoreRange) ∧
    ((10000 : Nat) < 10001 →
      runTx1 (fun st => ScorerContract.add_badge authsT st addrC "B" addrI 10001)
        scorerInit = scorerInit) :=
  add_badge_score_range authsT scorerInit addrC "B" addrI 10001
    rfl (by decide) (by decide) rfl

theorem hostDeploy_error_eq (L : Ledger) (d : Address) (salt : Salt)
    (hash : CodeHash) (e : Err) (h : hostDeploy L d salt hash = .error e) :
    e = .addressOccupied := by
  unfold hostDeploy at h
  split at h
  · injection h with h1
    exact h1.symm
  · exact absurd h (by simp)

theorem stringFromVal_error_eq (v : Val) (e : Err)
    (h : stringFromVal v = .error e) : e = .valNotString := by
  cases v <;> simp [stringFromVal] at h <;> exact h.symm

theorem hostDeploy_ok_inv (L : Ledger) (d : Address) (salt : Salt)
    (hash : CodeHash) (L1 : Ledger) (a : Address)
    (h : hostDeploy L d salt hash = .ok (L1, a)) :
    a = derivedAddress d salt ∧
    mapHas L.contracts (derivedAddress d salt) = false ∧
    L1 = { contracts := mapSet L.contracts (derivedAddress d salt) hash } := by
  unfold hostDeploy at h
  split at h
  · exact absurd h (by simp)
  · next hocc =>
    simp only [Except.ok.injEq, Prod.mk.injEq] at h
    exact ⟨h.2.symm, by simpa using hocc, h.1.symm⟩

theorem deploy_ok_inv (auths : Address → Bool) (selfAddr deployer : Address)
    (wasm_hash : CodeHash) (salt : Salt)
    (init : Address → Ledger → Except Err Ledger) (L L1 : Ledger) (a : Address)
    (h : Deployer.deploy auths selfAddr deployer wasm_hash salt init L =
      .ok (L1, a)) :
    a = derivedAddress deployer salt ∧
    mapHas L.contracts (derivedAddress deployer salt) = false ∧
    init (derivedAddress deployer salt)
      { contracts := mapSet L.contracts (derivedAddress deployer salt)
          wasm_hash } = .ok L1 := by
  unfold Deployer.deploy at h
  split at h
  · exact absurd h (by simp)
  · rcases hd : hostDeploy L deployer salt wasm_hash with e | p
    · rw [hd] at h
      exact absurd h (by simp)
    · obtain ⟨Lmid, addr⟩ := p
      rw [hd] at h
      dsimp only at h
      obtain ⟨ha, hocc, hLmid⟩ := hostDeploy_ok_inv L deployer salt wasm_hash
        Lmid addr hd
      rcases hi : init addr Lmid with e | L2
      · rw [hi] at h
        exact absurd h (by simp)
      · rw [hi] at h
        dsimp only at h
        simp only [Except.ok.injEq, Prod.mk.injEq] at h
        subst ha
        refine ⟨h.2.symm, hocc, ?_⟩
        rw [← hLmid, hi, h.1]

/-- C2: for every invoker, code hash, salt and initializer, a successful
`Deployer.deploy` returns exactly the deterministic address derived from
(invoker, salt) — the hash and initializer do not influence it — and a
second `deploy` with the same (invoker, salt) on the resulting chain
fails, for any authorization, self address, hash and initializer of the
second call (the initializer may add deployed instances but, like any
on-chain code, can never undeploy one, which is the `hmono`
hypothesis). -/
theorem deploy_deterministic_address_no_replay (auths auths2 : Address → Bool)
    (selfAddr selfAddr2 deployer : Address) (wasm_hash wasm_hash2 : CodeHash)
    (salt : Salt) (init init2 : Address → Ledger → Except Err Ledger)
    (L L1 : Ledger) (a : Address)
    (hok : Deployer.deploy auths selfAddr deployer wasm_hash salt init L =
      .ok (L1, a))
    (hmono : ∀ x l l2, init x l = .ok l2 →
      ∀ y, mapHas l.contracts y = true → mapHas l2.contracts y = true) :
    a = derivedAddress deployer salt ∧
    (Deployer.deploy auths2 selfAddr2 deployer wasm_hash2 salt init2 L1).isOk =
      false := by
  obtain ⟨ha, hocc, hinit⟩ := deploy_ok_inv auths selfAddr deployer wasm_hash
    salt init L L1 a hok
  have hoccupied : mapHas L1.contracts (derivedAddress deployer salt) = true := by
    refine hmono _ _ _ hinit _ ?_
    exact mapHas_mapSet_self _ _ _
  refine ⟨ha, ?_⟩
  unfold Deployer.deploy
  split
  · exact isOk_error _
  · simp [hostDeploy, hoccupied, isOk_error]

/-- C2 witness: `addrU` deploys with salt 0 on an empty chain; the call
returns the derived address, and replaying it on the new chain fails. -/
theorem deploy_deterministic_address_no_replay_witness :
    Address.derivedFrom addrU 0 = derivedAddress addrU 0 ∧
    (Deployer.deploy authsT addrC addrU 8 0 (fun _ l => .ok l)
      { contracts := [(Address.derivedFrom addrU 0, 7)] }).isOk = false :=
  deploy_deterministic_address_no_replay authsT authsT addrC addrC addrU 7 8 0
    (fun _ l => .ok l) (fun _ l => .ok l) emptyLedger
    { contracts := [(Address.derivedFrom addrU 0, 7)] }
    (Address.derivedFrom addrU 0) rfl
    (by
      intro x l l2 h y hy
      injection h with h1
      exact h1 ▸ hy)

/-- C1: for every code hash, salt and failing initializer, both
`Deployer.deploy` and `ScorerFactoryContract.create_scorer` abort with
the initializer's error; under the all-or-nothing transaction semantics
nothing is persisted, so no contract exists at the deterministic address
afterwards, and a subsequent call with the same (invoker, salt) and a
succeeding initializer succeeds. -/
theorem deploy_init_atomicity (auths : Address → Bool)
    (selfAddr deployer : Address) (wasm_hash : CodeHash) (salt : Salt)
    (init : Address → Ledger → Except Err Ledger) (e : Err) (L : Ledger)
    (authsF : Address → Bool) (factoryAddr deployerF : Address) (saltF : Salt)
    (args : List Val) (initF : Address → FWorld → Except Err FWorld) (eF : Err)
    (w : FWorld) (hashF : CodeHash)
    (hA : deployer = selfAddr ∨ auths deployer = true)
    (hfree : mapHas L.contracts (derivedAddress deployer salt) = false)
    (hfail : ∀ l, init (derivedAddress deployer salt) l = .error e)
    (hFA : deployerF = factoryAddr ∨ authsF deployerF = true)
    (hlen : 3 ≤ args.length)
    (hhash : w.factory.scorerWasmHash = some hashF)
    (hFfree : mapHas w.ledger.contracts (derivedAddress deployerF saltF) = false)
    (hFfail : ∀ w1, initF (derivedAddress deployerF saltF) w1 = .error eF) :
    Deployer.deploy auths selfAddr deployer wasm_hash salt init L =
      .error e ∧
    runTx (Deployer.deploy auths selfAddr deployer wasm_hash salt init) L = L ∧
    mapHas (runTx (Deployer.deploy auths selfAddr deployer wasm_hash salt init)
      L).contracts (derivedAddress deployer salt) = false ∧
    (Deployer.deploy auths selfAddr deployer wasm_hash salt
      (fun _ l => .ok l) L).isOk = true ∧
    ScorerFactoryContract.create_scorer authsF factoryAddr deployerF saltF args
      initF w = .error eF ∧
    runTx (ScorerFactoryContract.create_scorer authsF factoryAddr deployerF
      saltF args initF) w = w ∧
    mapHas (runTx (ScorerFactoryContract.create_scorer authsF factoryAddr
      deployerF saltF args initF) w).ledger.contracts
      (derivedAddress deployerF saltF) = false ∧
    (ScorerFactoryContract.create_scorer authsF factoryAddr deployerF saltF
      [Val.str "a", Val.str "b", Val.str "c"] (fun _ x => .ok x) w).isOk =
      true := by
  have hAc : ¬ (deployer ≠ selfAddr ∧ auths deployer = false) := by
    rcases hA with h | h
    · simp [h]
    · simp [h]
  have hFAc : ¬ (deployerF ≠ factoryAddr ∧ authsF deployerF = false) := by
    rcases hFA with h | h
    · simp [h]
    · simp [h]
  have h1 : Deployer.deploy auths selfAddr deployer wasm_hash salt init L =
      .error e := by
    simp [Deployer.deploy, hostDeploy, hAc, hfree, hfail]
  have h2 := runTx_error _ _ _ h1
  have h5 : ScorerFactoryContract.create_scorer authsF factoryAddr deployerF
      saltF args initF w = .error eF := by
    simp [ScorerFactoryContract.create_scorer, hostDeploy, hFAc,
      Nat.not_lt.mpr hlen, hhash, hFfree, hFfail]
  have h6 := runTx_error _ _ _ h5
  refine ⟨h1, h2, ?_, ?_, h5, h6, ?_, ?_⟩
  · rw [h2]
    exact hfree
  · simp [Deployer.deploy, hostDeploy, hAc, hfree, isOk_ok]
  · rw [h6]
    exact hFfree
  · simp [ScorerFactoryContract.create_scorer, hostDeploy, hFAc, hhash,
      hFfree, stringFromVal, isOk_ok]

/-- C1 witness: a concrete failing initializer against the Deployer and
the initialized factory on an empty chain, followed by the successful
retry. -/
theorem deploy_init_atomicity_witness :
    Deployer.deploy authsT addrC addrU 8 0 (fun _ _ => .error .EmptyArg)
      emptyLedger = .error .EmptyArg ∧
    runTx (Deployer.deploy authsT addrC addrU 8 0 (fun _ _ => .error .EmptyArg))
      emptyLedger = emptyLedger ∧
    mapHas (runTx (Deployer.deploy authsT addrC addrU 8 0
      (fun _ _ => .error .EmptyArg)) emptyLedger).contracts
      (derivedAddress addrU 0) = false ∧
    (Deployer.deploy authsT addrC addrU 8 0 (fun _ l => .ok l)
      emptyLedger).isOk = true ∧
    ScorerFactoryContract.create_scorer authsT addrC addrU 0
      [Val.str "a", Val.str "b", Val.str "c"] (fun _ _ => .error .EmptyArg)
      worldInit = .error .EmptyArg ∧
    runTx (ScorerFactoryContract.create_scorer authsT addrC addrU 0
      [Val.str "a", Val.str "b", Val.str "c"] (fun _ _ => .error .EmptyArg))
      worldInit = worldInit ∧
    mapHas (runTx (ScorerFactoryContract.create_scorer authsT addrC addrU 0
      [Val.str "a", Val.str "b", Val.str "c"] (fun _ _ => .error .EmptyArg))
      worldInit).ledger.contracts (derivedAddress addrU 0) = false ∧
    (ScorerFactoryContract.create_scorer authsT addrC addrU 0
      [Val.str "a", Val.str "b", Val.str "c"] (fun _ x => .ok x)
      worldInit).isOk = true :=
  deploy_init_atomicity authsT addrC addrU 8 0 (fun _ _ => .error .EmptyArg)
    .EmptyArg emptyLedger authsT addrC addrU 0
    [Val.str "a", Val.str "b", Val.str "c"] (fun _ _ => .error .EmptyArg)
    .EmptyArg worldInit 7
    (Or.inr rfl) rfl (fun _ => rfl) (Or.inr rfl) (by decide) rfl rfl
    (fun _ => rfl)

theorem create_scorer_error_cases (auths : Address → Bool)
    (factoryAddr deployer : Address) (salt : Salt) (args : List Val)
    (init : Address → FWorld → Except Err FWorld) (w : FWorld) (e : Err)
    (h : ScorerFactoryContract.create_scorer auths factoryAddr deployer salt
      args init w = .error e) :
    e = .authFailure ∨ e = .InvalidInitArgs ∨ e = .ContractCreatorNotFound ∨
    e = .addressOccupied ∨ e = .valNotString ∨
    ∃ x w1, init x w1 = .error e := by
  unfold ScorerFactoryContract.create_scorer at h
  split at h
  · left
    injection h with h1
    exact h1.symm
  · split at h
    · right; left
      injection h with h1
      exact h1.symm
    · split at h
      · right; right; left
        injection h with h1
        exact h1.symm
      · split at h
        · next e1 hd =>
          injection h with h1
          right; right; right; left
          rw [← h1]
          exact hostDeploy_error_eq _ _ _ _ _ hd
        · next p hd =>
          split at h
          · next e1 hi =>
            injection h with h1
            right; right; right; right; right
            exact ⟨_, _, h1 ▸ hi⟩
          · next w1 hi =>
            rcases hv1 : stringFromVal (args.getD (args.length - 1) (Val.other 0))
                with e1 | s1 <;>
              rcases hv2 : stringFromVal (args.getD (args.length - 2) (Val.other 0))
                  with e2 | s2 <;>
                rcases hv3 : stringFromVal (args.getD (args.length - 3) (Val.other 0))
                    with e3 | s3 <;>
                  rw [hv1, hv2, hv3] at h <;> dsimp only at h
            all_goals
              first
                | exact Except.noConfusion h
                | (injection h with h1
                   refine Or.inr (Or.inr (Or.inr (Or.inr (Or.inl ?_))))
                   rw [← h1]
                   first
                     | exact stringFromVal_error_eq _ _ hv1
                     | exact stringFromVal_error_eq _ _ hv2
                     | exact stringFromVal_error_eq _ _ hv3)

/-- C4: `create_scorer` requires the deployer's authorization exactly when
the deployer is not the factory's own address (when it is, the result is
independent of the authorization environment; when it is not and the
deployer has not authorized, the call fails at the auth check), and it
never demands that the deployer be a manager: an authorized caller with
at least 3 init args never receives `Unauthorized` (unless the invoked
initializer itself produces it), and a non-manager with well-formed
arguments succeeds outright. -/
theorem create_scorer_auth_gate
    (auths auths2 : Address → Bool) (factoryAddr deployer : Address)
    (salt : Salt) (args : List Val)
    (init : Address → FWorld → Except Err FWorld) (w : FWorld)
    (authsB : Address → Bool) (factoryAddrB deployerB : Address) (saltB : Salt)
    (argsB : List Val) (initB : Address → FWorld → Except Err FWorld)
    (wB : FWorld)
    (authsC : Address → Bool) (factoryAddrC deployerC : Address) (saltC : Salt)
    (argsC : List Val) (initC : Address → FWorld → Except Err FWorld)
    (wC : FWorld)
    (authsD : Address → Bool) (factoryAddrD deployerD : Address) (saltD : Salt)
    (nmD dsD icD : String) (wD : FWorld) (hashD : CodeHash)
    (hEq : deployer = factoryAddr)
    (hNe : deployerB ≠ factoryAddrB) (hNoAuth : authsB deployerB = false)
    (hCauth : authsC deployerC = true) (hClen : 3 ≤ argsC.length)
    (hCinit : ∀ x w1, initC x w1 ≠ Except.error Err.Unauthorized)
    (hDauth : authsD deployerD = true)
    (hDnm : deployerD ∉ managersOfF wD.factory)
    (hDhash : wD.factory.scorerWasmHash = some hashD)
    (hDfree : mapHas wD.ledger.contracts (derivedAddress deployerD saltD) =
      false) :
    ScorerFactoryContract.create_scorer auths factoryAddr deployer salt args
      init w =
      ScorerFactoryContract.create_scorer auths2 factoryAddr deployer salt args
        init w ∧
    ScorerFactoryContract.create_scorer authsB factoryAddrB deployerB saltB
      argsB initB wB = .error .authFailure ∧
    ScorerFactoryContract.create_scorer authsC factoryAddrC deployerC saltC
      argsC initC wC ≠ .error .Unauthorized ∧
    (ScorerFactoryContract.create_scorer authsD factoryAddrD deployerD saltD
      [Val.str nmD, Val.str dsD, Val.str icD] (fun _ x => .ok x) wD).isOk =
      true := by
  refine ⟨?_, ?_, ?_, ?_⟩
  · subst hEq
    simp [ScorerFactoryContract.create_scorer]
  · simp [ScorerFactoryContract.create_scorer, hNe, hNoAuth]
  · intro h
    rcases create_scorer_error_cases authsC factoryAddrC deployerC saltC argsC
        initC wC .Unauthorized h with h1 | h1 | h1 | h1 | h1 | ⟨x, w1, h1⟩
    · exact Err.noConfusion h1
    · exact Err.noConfusion h1
    · exact Err.noConfusion h1
    · exact Err.noConfusion h1
    · exact Err.noConfusion h1
    · exact hCinit x w1 h1
  · simp [ScorerFactoryContract.create_scorer, hostDeploy, hDauth, hDhash,
      hDfree, stringFromVal, isOk_ok]

/-- C4 witness: `addrU`, authorized but not a factory manager, creates a
scorer with three string init args on the initialized factory; the other
conjuncts are instantiated with an unauthorized caller and a benign
initializer. -/
theorem create_scorer_auth_gate_witness :
    ScorerFactoryContract.create_scorer authsT addrC addrC 0
      [Val.str "a", Val.str "b", Val.str "c"] (fun _ x => .ok x) worldInit =
      ScorerFactoryContract.create_scorer (fun _ => false) addrC addrC 0
        [Val.str "a", Val.str "b", Val.str "c"] (fun _ x => .ok x) worldInit ∧
    ScorerFactoryContract.create_scorer (fun _ => false) addrC addrU 0
      [Val.str "a", Val.str "b", Val.str "c"] (fun _ x => .ok x) worldInit =
      .error .authFailure ∧
    ScorerFactoryContract.create_scorer authsT addrC addrU 0
      [Val.str "a", Val.str "b", Val.str "c"] (fun _ x => .ok x) worldInit ≠
      .error .Unauthorized ∧
    (ScorerFactoryContract.create_scorer authsT addrC addrU 0
      [Val.str "a", Val.str "b", Val.str "c"] (fun _ x => .ok x)
      worldInit).isOk = true :=
  create_scorer_auth_gate authsT (fun _ => false) addrC addrC 0
    [Val.str "a", Val.str "b", Val.str "c"] (fun _ x => .ok x) worldInit
    (fun _ => false) addrC addrU 0
    [Val.str "a", Val.str "b", Val.str "c"] (fun _ x => .ok x) worldInit
    authsT addrC addrU 0
    [Val.str "a", Val.str "b", Val.str "c"] (fun _ x => .ok x) worldInit
    authsT addrC addrU 0 "a" "b" "c" worldInit 7
    rfl (by decide) rfl rfl (by decide)
    (fun x w1 h => Except.noConfusion h)
    rfl (by decide) rfl rfl

theorem factory_initializeOp_ne_crlm (auths : Address → Bool)
    (s : FactoryState) (c : Address) (hash : CodeHash) :
    ScorerFactoryContract.initializeOp auths s c hash ≠
      .error .CannotRemoveLastManager := by
  intro h
  unfold ScorerFactoryContract.initializeOp at h
  split at h
  · exact Err.noConfusion (Except.error.inj h)
  · split at h
    · exact Err.noConfusion (Except.error.inj h)
    · exact Except.noConfusion h

theorem factory_is_creator_ne_crlm (s : FactoryState) (a : Address) :
    ScorerFactoryContract.is_scorer_factory_creator s a ≠
      .error .CannotRemoveLastManager := by
  intro h
  unfold ScorerFactoryContract.is_scorer_factory_creator at h
  split at h
  · exact Err.noConfusion (Except.error.inj h)
  · exact Except.noConfusion h

theorem factory_add_manager_ne_crlm (auths : Address → Bool) (s : FactoryState)
    (c t : Address) :
    ScorerFactoryContract.add_manager auths s c t ≠
      .error .CannotRemoveLastManager := by
  intro h
  unfold ScorerFactoryContract.add_manager at h
  split at h
  · exact Err.noConfusion (Except.error.inj h)
  · split at h
    · exact Err.noConfusion (Except.error.inj h)
    · split at h
      · exact Err.noConfusion (Except.error.inj h)
      · split at h
        · exact Err.noConfusion (Except.error.inj h)
        · exact Except.noConfusion h

theorem factory_remove_manager_ne_crlm (auths : Address → Bool)
    (s : FactoryState) (c t : Address) :
    ScorerFactoryContract.remove_manager auths s c t ≠
      .error .CannotRemoveLastManager := by
  intro h
  unfold ScorerFactoryContract.remove_manager at h
  split at h
  · exact Err.noConfusion (Except.error.inj h)
  · split at h
    · exact Err.noConfusion (Except.error.inj h)
    · split at h
      · exact Err.noConfusion (Except.error.inj h)
      · split at h
        · exact Err.noConfusion (Except.error.inj h)
        · split at h
          · exact Except.noConfusion h
          · exact Err.noConfusion (Except.error.inj h)

theorem factory_get_scorers_ne_crlm (s : FactoryState) :
    ScorerFactoryContract.get_scorers s ≠
      .error .CannotRemoveLastManager := by
  intro h
  unfold ScorerFactoryContract.get_scorers at h
  split at h
  · exact Err.noConfusion (Except.error.inj h)
  · exact Except.noConfusion h

theorem factory_get_managers_ne_crlm (s : FactoryState) :
    ScorerFactoryContract.get_managers s ≠
      .error .CannotRemoveLastManager := by
  intro h
  unfold ScorerFactoryContract.get_managers at h
  split at h
  · exact Err.noConfusion (Except.error.inj h)
  · exact Except.noConfusion h

theorem factory_get_creator_ne_crlm (s : FactoryState) :
    ScorerFactoryContract.get_contract_creator s ≠
      .error .CannotRemoveLastManager := by
  intro h
  unfold ScorerFactoryContract.get_contract_creator at h
  split at h
  · exact Err.noConfusion (Except.error.inj h)
  · exact Except.noConfusion h

theorem factory_remove_scorer_ne_crlm (auths : Address → Bool)
    (s : FactoryState) (c t : Address) :
    ScorerFactoryContract.remove_scorer auths s c t ≠
      .error .CannotRemoveLastManager := by
  intro h
  unfold ScorerFactoryContract.remove_scorer at h
  split at h
  · exact Err.noConfusion (Except.error.inj h)
  · split at h
    · exact Err.noConfusion (Except.error.inj h)
    · split at h
      · exact Err.noConfusion (Except.error.inj h)
      · split at h
        · exact Err.noConfusion (Except.error.inj h)
        · exact Except.noConfusion h

theorem create_scorer_ne_crlm (auths : Address → Bool)
    (factoryAddr deployer : Address) (salt : Salt) (args : List Val)
    (init : Address → FWorld → Except Err FWorld) (w : FWorld)
    (hinit : ∀ x w1, init x w1 ≠ Except.error Err.CannotRemoveLastManager) :
    ScorerFactoryContract.create_scorer auths factoryAddr deployer salt args
      init w ≠ .error .CannotRemoveLastManager := by
  intro h
  rcases create_scorer_error_cases auths factoryAddr deployer salt args init w
      .CannotRemoveLastManager h with h1 | h1 | h1 | h1 | h1 | ⟨x, w1, h1⟩
  · exact Err.noConfusion h1
  · exact Err.noConfusion h1
  · exact Err.noConfusion h1
  · exact Err.noConfusion h1
  · exact Err.noConfusion h1
  · exact hinit x w1 h1

/-- C10: on the ScorerFactory, an authorized manager (or the creator) can
remove any present manager — including the last one, leaving the list
empty — and no factory entry point ever raises the declared
`CannotRemoveLastManager` error (the initializer a `createScorer` call
forwards to is assumed not to raise it either, which the Scorer's
initializer cannot). -/
theorem factory_remove_last_manager (auths : Address → Bool)
    (f : FactoryState) (caller target creator : Address) (ms : List Address)
    (f2 : FactoryState) (caller2 creator2 : Address)
    (factoryAddr : Address) (init : Address → FWorld → Except Err FWorld)
    (c : FactoryCall) (w : FWorld)
    (hauth : auths caller = true)
    (hcr : f.scorerFactoryCreator = some creator)
    (hok : creator = caller ∨ ScorerFactoryContract.is_manager f caller)
    (hms : f.managers = some ms) (hmem : target ∈ ms)
    (hauth2 : auths caller2 = true)
    (hcr2 : f2.scorerFactoryCreator = some creator2)
    (hms2 : f2.managers = some [caller2])
    (hinit : ∀ x w1, init x w1 ≠ Except.error Err.CannotRemoveLastManager) :
    ScorerFactoryContract.remove_manager auths f caller target =
      .ok { f with managers := some (eraseFirst ms target) } ∧
    ScorerFactoryContract.remove_manager auths f2 caller2 caller2 =
      .ok { f2 with managers := some [] } ∧
    runFactoryCall auths factoryAddr init c w ≠
      .error .CannotRemoveLastManager := by
  refine ⟨?_, ?_, ?_⟩
  · simp [ScorerFactoryContract.remove_manager, hauth, hcr, hok, hms, hmem]
  · have hok2 : creator2 = caller2 ∨ ScorerFactoryContract.is_manager f2
        caller2 := by
      right
      simp [ScorerFactoryContract.is_manager, hms2]
    simp [ScorerFactoryContract.remove_manager, hauth2, hcr2, hok2, hms2,
      eraseFirst]
  · cases c with
    | initCall cr hsh =>
      intro h
      unfold runFactoryCall at h
      dsimp only at h
      rcases he : ScorerFactoryContract.initializeOp auths w.factory cr hsh
          with e | f1 <;> rw [he] at h <;> dsimp only at h
      · exact factory_initializeOp_ne_crlm auths w.factory cr hsh
          ((Except.error.inj h) ▸ he)
      · exact Except.noConfusion h
    | isInitialized =>
      intro h
      unfold runFactoryCall at h
      dsimp only at h
      exact Except.noConfusion h
    | isCreator a =>
      intro h
      unfold runFactoryCall at h
      dsimp only at h
      rcases he : ScorerFactoryContract.is_scorer_factory_creator w.factory a
          with e | b <;> rw [he] at h <;> dsimp only at h
      · exact factory_is_creator_ne_crlm w.factory a
          ((Except.error.inj h) ▸ he)
      · exact Except.noConfusion h
    | isManagerCall a =>
      intro h
      unfold runFactoryCall at h
      dsimp only at h
      exact Except.noConfusion h
    | addManager cl mg =>
      intro h
      unfold runFactoryCall at h
      dsimp only at h
      rcases he : ScorerFactoryContract.add_manager auths w.factory cl mg
          with e | f1 <;> rw [he] at h <;> dsimp only at h
      · exact factory_add_manager_ne_crlm auths w.factory cl mg
          ((Except.error.inj h) ▸ he)
      · exact Except.noConfusion h
    | removeManager cl mg =>
      intro h
      unfold runFactoryCall at h
      dsimp only at h
      rcases he : ScorerFactoryContract.remove_manager auths w.factory cl mg
          with e | f1 <;> rw [he] at h <;> dsimp only at h
      · exact factory_remove_manager_ne_crlm auths w.factory cl mg
          ((Except.error.inj h) ▸ he)
      · exact Except.noConfusion h
    | getScorers =>
      intro h
      unfold runFactoryCall at h
      dsimp only at h
      rcases he : ScorerFactoryContract.get_scorers w.factory
          with e | v <;> rw [he] at h <;> dsimp only at h
      · exact factory_get_scorers_ne_crlm w.factory
          ((Except.error.inj h) ▸ he)
      · exact Except.noConfusion h
    | getManagers =>
      intro h
      unfold runFactoryCall at h
      dsimp only at h
      rcases he : ScorerFactoryContract.get_managers w.factory
          with e | v <;> rw [he] at h <;> dsimp only at h
      · exact factory_get_managers_ne_crlm w.factory
          ((Except.error.inj h) ▸ he)
      · exact Except.noConfusion h
    | getCreator =>
      intro h
      unfold runFactoryCall at h
      dsimp only at h
      rcases he : ScorerFactoryContract.get_contract_creator w.factory
          with e | v <;> rw [he] at h <;> dsimp only at h
      · exact factory_get_creator_ne_crlm w.factory
          ((Except.error.inj h) ▸ he)
      · exact Except.noConfusion h
    | removeScorer cl sc =>
      intro h
      unfold runFactoryCall at h
      dsimp only at h
      rcases he : ScorerFactoryContract.remove_scorer auths w.factory cl sc
          with e | f1 <;> rw [he] at h <;> dsimp only at h
      · exact factory_remove_scorer_ne_crlm auths w.factory cl sc
          ((Except.error.inj h) ▸ he)
      · exact Except.noConfusion h
    | createScorer dp sa ar =>
      intro h
      unfold runFactoryCall at h
      dsimp only at h
      rcases he : ScorerFactoryContract.create_scorer auths factoryAddr dp sa
          ar init w with e | p
      · rw [he] at h
        dsimp only at h
        exact create_scorer_ne_crlm auths factoryAddr dp sa ar init w hinit
          ((Except.error.inj h) ▸ he)
      · obtain ⟨w1, ad⟩ := p
        rw [he] at h
        dsimp only at h
        exact Except.noConfusion h

/-- C10 witness: the factory creator removes itself as the only manager,
leaving the list empty, and a concrete `removeManager` call never yields
`CannotRemoveLastManager`. -/
theorem factory_remove_last_manager_witness :
    ScorerFactoryContract.remove_manager authsT
      { factoryInit with managers := some [addrC, addrU] } addrC addrU =
      .ok { { factoryInit with managers := some [addrC, addrU] } with
            managers := some (eraseFirst [addrC, addrU] addrU) } ∧
    ScorerFactoryContract.remove_manager authsT factoryInit addrC addrC =
      .ok { factoryInit with managers := some [] } ∧
    runFactoryCall authsT addrC (fun _ x => .ok x)
      (FactoryCall.removeManager addrC addrC) worldInit ≠
      .error .CannotRemoveLastManager :=
  factory_remove_last_manager authsT
    { factoryInit with managers := some [addrC, addrU] } addrC addrU addrC
    [addrC, addrU] factoryInit addrC addrC addrC (fun _ x => .ok x)
    (FactoryCall.removeManager addrC addrC) worldInit
    rfl rfl (Or.inl rfl) rfl (by decide)
    rfl rfl rfl (fun x w1 h => Except.noConfusion h)

end Trustful
